import Mathlib

/-!
Shallow embedding of the probing-and-selection engine of SourceForgeSpeedTest
(src/main.go).  Network effects (the go-ping library and http.Get) are
modelled by oracles supplying, per host, the observation the library call
would return; every repository function is translated directly from the
source.  The Go standard library call sort.Sort is modelled by its documented
contract (see goSortSortByLatency below).
-/

namespace SpeedTest

/-- Domain record (src/main.go lines 39-44): a host name with the most recent
latency measurement, mean download time, and download-failure flag.  Go zero
values are Latency = 0, Download = 0, DownloadErr = false. -/
structure Domain where
  Name : String
  Latency : Int
  Download : Int
  DownloadErr : Bool
deriving DecidableEq

/-- ByLatency.Less (src/main.go line 48): a.Latency < b.Latency. -/
def byLatencyLess (a b : Domain) : Bool :=
  decide (a.Latency < b.Latency)

/-- Statistics returned by pinger.Statistics() as used at src/main.go
lines 159-165: the packet-loss percentage (a float64 in Go, modelled
exactly as a rational: the only use is the comparison with 0, whose sign
is computed exactly even in floating point) and AvgRtt in milliseconds. -/
structure PingStats where
  PacketLoss : ℚ
  AvgRttMillis : Int
deriving DecidableEq

/-- What the go-ping library produced for one tping call: creation of the
pinger failed (name resolution), pinger.Run failed (timeout, privilege),
or it ran and yielded statistics. -/
inductive PingOutcome where
  | newPingerErr
  | runErr
  | ok (stats : PingStats)
deriving DecidableEq

/-- tping (src/main.go lines 141-167): returns (-1, error) when the pinger
cannot be created, when Run fails, or when any packet loss was observed;
otherwise (AvgRtt in milliseconds, no error).  The error value is modelled
by the message string built at each return site. -/
def tping (outcome : PingOutcome) : Int × Option String :=
  match outcome with
  | .newPingerErr => (-1, some "无法创建pinger")
  | .runErr => (-1, some "无法允许pinger")
  | .ok stats =>
      if stats.PacketLoss > 0 then (-1, some "检测到丢包")
      else (stats.AvgRttMillis, none)

/-- One download goroutine (src/main.go lines 172-186): it sends -1 to the
channel when http.Get errors, otherwise the elapsed milliseconds (a
nonnegative number).  The oracle value is none on error, some elapsed on
success. -/
def attemptSpeed (attempt : Option Nat) : Int :=
  match attempt with
  | none => -1
  | some elapsed => (elapsed : Int)

/-- download (src/main.go lines 168-208): given the outcomes of the
`threads` concurrent attempts (the channel delivers every sent value
exactly once; sum and count are order independent), it sums and counts the
values different from -1; if the count is zero it returns an error,
otherwise totalSpeed / count with Go integer division (truncation toward
zero, Int.tdiv; both operands are nonnegative here). -/
def download (attempts : List (Option Nat)) : Except String Int :=
  let speeds := attempts.map attemptSpeed
  let totals := speeds.foldl
    (fun tc speed => if speed != -1 then (tc.1 + speed, tc.2 + 1) else tc)
    ((0 : Int), (0 : Int))
  if totals.2 == 0 then Except.error "节点状态异常！"
  else Except.ok (Int.tdiv totals.1 totals.2)

/-- Oracle for the network: what the ping library observes for a host, and
what the `threads` download attempts of the download function observe for a
host. -/
structure NetEnv where
  ping : String → PingOutcome
  downloadAttempts : String → List (Option Nat)

/-- Body of one measureLatencyAndDownload goroutine (src/main.go lines
112-124) acting on the slice element it owns: store the tping latency
(error discarded); when the latency is not -1 run download and either set
DownloadErr on error or store the speed. -/
def measureDomain (env : NetEnv) (d : Domain) : Domain :=
  let latency := (tping (env.ping d.Name)).1
  let d1 : Domain := ⟨d.Name, latency, d.Download, d.DownloadErr⟩
  if latency != -1 then
    match download (env.downloadAttempts d1.Name) with
    | Except.error _ => ⟨d1.Name, d1.Latency, d1.Download, true⟩
    | Except.ok downloadSpeed => ⟨d1.Name, d1.Latency, downloadSpeed, d1.DownloadErr⟩
  else d1

/-- excludeDownloadError (src/main.go lines 132-140): keep exactly the
domains whose DownloadErr flag is false. -/
def excludeDownloadError (domains : List Domain) : List Domain :=
  domains.filter (fun d => !d.DownloadErr)

/-- measureLatencyAndDownload (src/main.go lines 108-130): every goroutine
writes only the element at its own index, and the WaitGroup joins them all
before excludeDownloadError runs, so the concurrent fan-out is the map of
measureDomain over the slice. -/
def measureLatencyAndDownload (env : NetEnv) (domains : List Domain) : List Domain :=
  excludeDownloadError (domains.map (measureDomain env))

/-- updateDomainsLatency (src/main.go lines 95-106): every goroutine writes
only the Latency of the element at its own index, from tping alone; no
other field is touched and nothing is removed. -/
def updateDomainsLatency (env : NetEnv) (domains : List Domain) : List Domain :=
  domains.map (fun d => ⟨d.Name, (tping (env.ping d.Name)).1, d.Download, d.DownloadErr⟩)

/-- Latencies are non-decreasing along the list: exactly the guarantee of a
slice ordered by ByLatency.Less, since for i < j sort.Sort ensures that
Less (a j) (a i) fails, that is (a i).Latency ≤ (a j).Latency. -/
def sortedByLatency (l : List Domain) : Prop :=
  List.Sorted (fun a b : Domain => a.Latency ≤ b.Latency) l

instance (l : List Domain) : Decidable (sortedByLatency l) :=
  inferInstanceAs (Decidable (List.Sorted _ l))

/-- Modelled from the documented contract of the Go standard library call
sort.Sort, used at src/main.go lines 87 and 264 with the ByLatency
comparator: the slice is reordered in place into a permutation of the input
that is non-decreasing in Latency.  The Go documentation states that the
sort is NOT guaranteed to be stable (sort.Stable gives that guarantee and
is not used here), so every sorted permutation of the input is a permitted
result and this relation is the strongest version-independent guarantee of
the call. -/
def goSortSortByLatency (input output : List Domain) : Prop :=
  List.Perm output input ∧ sortedByLatency output

instance (input output : List Domain) : Decidable (goSortSortByLatency input output) :=
  inferInstanceAs (Decidable (_ ∧ _))

/-- Stability in the sense of the specification: any two candidates with
equal latency keep their relative input order. -/
def keepsEqualLatencyOrder (input output : List Domain) : Prop :=
  ∀ a b : Domain, a ∈ input → b ∈ input → a.Latency = b.Latency →
    List.indexOf a input < List.indexOf b input →
    List.indexOf a output < List.indexOf b output

/-- The ranking pipeline of findFastestDomain (src/main.go lines 261-266)
after the file read: measureLatencyAndDownload (which ends in
excludeDownloadError) followed by sort.Sort. -/
def rankedResult (env : NetEnv) (domains output : List Domain) : Prop :=
  goSortSortByLatency (measureLatencyAndDownload env domains) output

instance (env : NetEnv) (domains output : List Domain) :
    Decidable (rankedResult env domains output) :=
  inferInstanceAs (Decidable (goSortSortByLatency _ _))

/-- The three package-level selection variables (src/main.go lines 29-31):
multifastestdomain, singlefastestdomain, allfastestdomain. -/
structure Store where
  multifastestdomain : String
  singlefastestdomain : String
  allfastestdomain : String
deriving DecidableEq

/-- Go zero values: every selection variable starts as the empty string. -/
def initialStore : Store :=
  ⟨"", "", ""⟩

/-- The three selection groups served by the gin routes /multi, /single and
/all (src/main.go lines 234-252). -/
inductive Group where
  | all
  | single
  | multi
deriving DecidableEq

/-- The assignment to the selection variable of one group performed by
updateAndStoreFastestDomains (src/main.go lines 89-92): a plain Go global
assignment, which overwrites the previous value unconditionally. -/
def publish (g : Group) (s : Store) (host : String) : Store :=
  match g with
  | .all => ⟨s.multifastestdomain, s.singlefastestdomain, host⟩
  | .single => ⟨s.multifastestdomain, host, s.allfastestdomain⟩
  | .multi => ⟨host, s.singlefastestdomain, s.allfastestdomain⟩

/-- The read of the selection variable of one group performed by the gin
handlers (src/main.go lines 236-252). -/
def read (g : Group) (s : Store) : String :=
  match g with
  | .all => s.allfastestdomain
  | .single => s.singlefastestdomain
  | .multi => s.multifastestdomain

/-- findFastestDomain (src/main.go lines 261-266) on an already loaded
domain list: measureLatencyAndDownload, sort.Sort, then domains[0].Name.
Indexing element 0 of an empty Go slice panics with index out of range;
the panic is modelled as the result none, a successful return as some
name. -/
def findFastestDomainRel (env : NetEnv) (domains : List Domain) (result : Option String) : Prop :=
  ∃ sortedD, goSortSortByLatency (measureLatencyAndDownload env domains) sortedD ∧
    result = sortedD.head?.map Domain.Name

/-- The all-group part of updateAndStoreFastestDomains (src/main.go lines
86-89): updateDomainsLatency on the shared list, sort.Sort, then the
assignment allfastestdomain = domains[0].Name.  The result pairs the store
after the assignment with the sorted list left in the shared slice; none
models the index-out-of-range panic on an empty slice. -/
def storeAllFastestRel (env : NetEnv) (domains : List Domain) (s : Store)
    (out : Option (Store × List Domain)) : Prop :=
  ∃ sortedD, goSortSortByLatency (updateDomainsLatency env domains) sortedD ∧
    out = sortedD.head?.map (fun d => (publish Group.all s d.Name, sortedD))

/-- Events of the main control flow (src/main.go lines 69-83). -/
inductive MainEvent where
  | initialMeasureAndStore
  | serverStart
  | tickMeasureAndStore
deriving DecidableEq

/-- The ticker loop of main (src/main.go lines 76-82).  startGinServer ends
in r.Run, which blocks while the server is serving and returns only when it
fails; srr k records whether the k-th startGinServer call of the process
returns.  An iteration of the loop body is reached only after the previous
startGinServer call has returned, and fuel bounds how many iterations are
examined. -/
def loopEvents (srr : Nat → Bool) : Nat → Nat → List MainEvent
  | _, 0 => []
  | k, fuel + 1 =>
      if srr k then
        MainEvent.tickMeasureAndStore :: MainEvent.serverStart :: loopEvents srr (k + 1) fuel
      else []

/-- main after flag parsing (src/main.go lines 69-83): one synchronous
updateAndStoreFastestDomains, one synchronous startGinServer call, then the
ticker loop whose body runs updateAndStoreFastestDomains and startGinServer
once per tick. -/
def mainEvents (srr : Nat → Bool) (fuel : Nat) : List MainEvent :=
  MainEvent.initialMeasureAndStore :: MainEvent.serverStart :: loopEvents srr 0 fuel

/-- Oracle under which every ping fails at pinger.Run (tping yields -1). -/
def envPingFail : NetEnv :=
  ⟨fun _ => PingOutcome.runErr, fun _ => []⟩

/-- Oracle under which every ping succeeds with 50 ms and no loss, and
every download attempt fails, so download errors for every host. -/
def envDownloadFail : NetEnv :=
  ⟨fun _ => PingOutcome.ok ⟨0, 50⟩, fun _ => [none]⟩

/-- Oracle under which host a is unreachable at pinger.Run and host b pings
at 50 ms with no loss; downloads succeed in 10 ms. -/
def envAB : NetEnv :=
  ⟨fun name => if name == "a" then PingOutcome.runErr else PingOutcome.ok ⟨0, 50⟩,
   fun _ => [some 10]⟩

/-- Candidate A of the specification example, latency 50. -/
def dA50 : Domain := ⟨"A", 50, 0, false⟩

/-- Candidate B of the specification example, latency 50. -/
def dB50 : Domain := ⟨"B", 50, 0, false⟩

/-- Candidate C of the specification example, latency 10. -/
def dC10 : Domain := ⟨"C", 10, 0, false⟩

/-- When the measured-and-filtered list is empty, the only possible outcome
of findFastestDomain is the index-out-of-range panic, modelled as none. -/
lemma findFastestDomainRel_of_measure_nil (env : NetEnv) (domains : List Domain)
    (hm : measureLatencyAndDownload env domains = []) :
    ∀ out, findFastestDomainRel env domains out ↔ out = none := by
  intro out
  constructor
  · rintro ⟨sortedD, ⟨hperm, _⟩, hout⟩
    rw [hm] at hperm
    rw [hperm.eq_nil] at hout
    simpa using hout
  · rintro rfl
    refine ⟨[], ⟨?_, ?_⟩, rfl⟩
    · rw [hm]
    · exact List.sorted_nil

/-- The folding loop of download: starting from the accumulator (t, c), it
adds the sum of the successful attempts to t and their number to c. -/
lemma download_totals (attempts : List (Option Nat)) (t c : Int) :
    (attempts.map attemptSpeed).foldl
      (fun tc speed => if speed != -1 then (tc.1 + speed, tc.2 + 1) else tc) (t, c)
      = (t + ((attempts.filterMap id).sum : Int), c + ((attempts.filterMap id).length : Int)) := by
  induction attempts generalizing t c with
  | nil => simp
  | cons a rest ih =>
      cases a with
      | none =>
          simp only [List.map_cons, List.foldl_cons, attemptSpeed, bne_self_eq_false,
            Bool.false_eq_true, if_false, List.filterMap_cons, id]
          exact ih t c
      | some e =>
          have he : (((e : Nat) : Int) != -1) = true := by
            simp only [bne_iff_ne, ne_eq]
            omega
          simp only [List.map_cons, List.foldl_cons, attemptSpeed, he, if_true,
            List.filterMap_cons, id, List.sum_cons, List.length_cons, ih]
          simp only [Prod.mk.injEq]
          constructor <;> push_cast <;> ring

/-- download in closed form: an error exactly when no attempt succeeded,
otherwise the Go integer quotient of the sum of the successful elapsed
times by their number. -/
lemma download_eq (attempts : List (Option Nat)) :
    download attempts =
      if (attempts.filterMap id).length = 0 then Except.error "节点状态异常！"
      else Except.ok (Int.tdiv ((attempts.filterMap id).sum : Int)
        ((attempts.filterMap id).length : Int)) := by
  unfold download
  dsimp only
  rw [download_totals]
  simp

/-- C1, counterexample: under an oracle where the probe of host a fails at
pinger.Run, the ranking operation (measureLatencyAndDownload followed by
excludeDownloadError) returns the candidate with the unmeasured latency
sentinel -1 still present: the filter removes only DownloadErr candidates,
and a candidate whose probe failed never attempts a download, so its
DownloadErr flag stays false.  This refutes the part of the claim stating
that no candidate with latency -1 survives. -/
theorem C1_sentinel_latency_survives_cex :
    measureLatencyAndDownload envPingFail [⟨"a", 0, 0, false⟩] = [⟨"a", -1, 0, false⟩] ∧
    (measureLatencyAndDownload envPingFail [⟨"a", 0, 0, false⟩]).any
      (fun d => d.Latency == -1) = true :=
  ⟨rfl, rfl⟩

/-- C1, amended: for every oracle and candidate list, the ranking operation
returns a sequence with no candidate whose DownloadErr flag is set;
candidates whose latency equals the sentinel -1 are not filtered out and
may remain. -/
theorem C1_ranking_excludes_download_errors_only :
    ∀ (env : NetEnv) (domains : List Domain),
      (measureLatencyAndDownload env domains).all (fun d => !d.DownloadErr) = true := by
  intro env domains
  rw [List.all_eq_true]
  intro d hd
  simp only [measureLatencyAndDownload, excludeDownloadError] at hd
  exact (List.mem_filter.1 hd).2

/-- C3: with one candidate whose every download attempt fails, the ranking
returns the empty sequence (this half of the claim holds), but the caller
findFastestDomain then evaluates domains[0].Name on the empty slice, which
in Go panics with index out of range (modelled as the outcome none): the
panic is the only possible outcome, refuting the part of the claim that the
caller handles the empty result without crashing.  The same holds for the
empty input list under every oracle. -/
theorem C3_empty_ranking_panics :
    measureLatencyAndDownload envDownloadFail [⟨"a", 0, 0, false⟩] = [] ∧
    (∀ out, findFastestDomainRel envDownloadFail [⟨"a", 0, 0, false⟩] out ↔ out = none) ∧
    (∀ env : NetEnv, measureLatencyAndDownload env [] = [] ∧
      ∀ out, findFastestDomainRel env [] out ↔ out = none) := by
  refine ⟨rfl, findFastestDomainRel_of_measure_nil _ _ rfl, ?_⟩
  intro env
  exact ⟨rfl, findFastestDomainRel_of_measure_nil _ _ rfl⟩

/-- C3, witness: the panic outcome is reachable at the failing input. -/
theorem C3_witness :
    findFastestDomainRel envDownloadFail [⟨"a", 0, 0, false⟩] none :=
  (C3_empty_ranking_panics.2.1 none).2 rfl

/-- C4, counterexample: publishing the empty host name for the single group
after a prior successful publish of fast.example.com leaves the store
holding the empty string, not the previous host: the Go global assignment
overwrites unconditionally, so no previous value is retained. -/
theorem C4_retention_cex :
    read Group.single
      (publish Group.single (publish Group.single initialStore "fast.example.com") "") = "" ∧
    ("" : String) ≠ "fast.example.com" :=
  ⟨rfl, by decide⟩

/-- C4, amended: for every group, publish is a plain overwrite: publishing
the empty string after any prior publish makes subsequent reads of the
group return the empty string, whatever was stored before. -/
theorem C4_publish_overwrites :
    ∀ (g : Group) (s : Store) (host : String),
      read g (publish g (publish g s host) "") = "" := by
  intro g s host
  cases g <;> rfl

/-- C5: when the first startGinServer call never returns, which is the
normal case (r.Run binds the port and serves forever, returning only on
failure), the whole main trace is the startup measurement cycle followed by
the server start: the ticker refresh loop is never reached and no periodic
re-measurement ever occurs, however many ticker periods elapse. -/
theorem C5_refresh_loop_never_reached :
    ∀ (srr : Nat → Bool) (fuel : Nat), srr 0 = false →
      mainEvents srr fuel = [MainEvent.initialMeasureAndStore, MainEvent.serverStart] ∧
      MainEvent.tickMeasureAndStore ∉ mainEvents srr fuel := by
  intro srr fuel h
  have hloop : loopEvents srr 0 fuel = [] := by
    cases fuel with
    | zero => rfl
    | succ n => simp [loopEvents, h]
  refine ⟨?_, ?_⟩
  · simp [mainEvents, hloop]
  · simp [mainEvents, hloop]

/-- C5, witness: a server that never returns, observed for three ticker
periods, produces no refresh event. -/
theorem C5_witness :
    mainEvents (fun _ => false) 3 = [MainEvent.initialMeasureAndStore, MainEvent.serverStart] ∧
    MainEvent.tickMeasureAndStore ∉ mainEvents (fun _ => false) 3 :=
  C5_refresh_loop_never_reached (fun _ => false) 3 rfl

/-- C7, counterexample: before any publish, the read of the single group
returns the empty string, which is not a signal distinct from the empty
string. -/
theorem C7_signal_cex :
    read Group.single initialStore = "" :=
  rfl

/-- C7, amended: before any publish, the read of every group returns the
empty string, the Go zero value of the package-level selection variables;
no distinct not-yet-available signal exists in the code. -/
theorem C7_initial_read_empty :
    ∀ g : Group, read g initialStore = "" := by
  intro g
  cases g <;> rfl

/-- C8: whenever the measured packet loss is strictly positive, even
partial, the probe returns the sentinel -1 together with the packet-loss
error, never an average computed from the successful packets. -/
theorem C8_packet_loss_disqualifies :
    ∀ stats : PingStats, stats.PacketLoss > 0 →
      tping (PingOutcome.ok stats) = (-1, some "检测到丢包") := by
  intro stats h
  simp [tping, h]

/-- C8, witness: a run with 50 percent loss and a 10 ms average round trip
yields the sentinel and the packet-loss error. -/
theorem C8_witness :
    tping (PingOutcome.ok ⟨50, 10⟩) = (-1, some "检测到丢包") :=
  C8_packet_loss_disqualifies ⟨50, 10⟩ (by decide)

/-- C2, counterexample: sort.Sort carries no stability guarantee, so on the
specification example with latencies A:50, B:50, C:10 the sorted
permutation [C, B, A] is a permitted result of the code, and it does not
keep the relative input order of the equal-latency candidates A and B: the
claimed stability fails (sort.Stable, which guarantees it, is not used). -/
theorem C2_stability_cex :
    goSortSortByLatency [dA50, dB50, dC10] [dC10, dB50, dA50] ∧
    ¬ keepsEqualLatencyOrder [dA50, dB50, dC10] [dC10, dB50, dA50] := by
  refine ⟨by decide, ?_⟩
  intro h
  have := h dA50 dB50 (by decide) (by decide) rfl (by decide)
  revert this
  decide

/-- C2, amended: every permitted ranked result is sorted non-decreasing by
latency, but stability is not guaranteed: on the example with latencies
A:50, B:50, C:10 the permitted outputs are exactly [C, A, B] and
[C, B, A], so equal-latency candidates may lose their relative input
order. -/
theorem C2_sorted_not_guaranteed_stable :
    (∀ (env : NetEnv) (domains output : List Domain),
      rankedResult env domains output → sortedByLatency output) ∧
    (∀ output, goSortSortByLatency [dA50, dB50, dC10] output →
      output = [dC10, dA50, dB50] ∨ output = [dC10, dB50, dA50]) := by
  constructor
  · rintro env domains output ⟨_, hsort⟩
    exact hsort
  · rintro output ⟨hperm, hsort⟩
    have hlen : output.length = 3 := by
      simpa using hperm.length_eq
    obtain ⟨x, y, z, rfl⟩ := List.length_eq_three.1 hlen
    have hx : x ∈ [dA50, dB50, dC10] := hperm.subset (by simp)
    have hy : y ∈ [dA50, dB50, dC10] := hperm.subset (by simp)
    have hz : z ∈ [dA50, dB50, dC10] := hperm.subset (by simp)
    simp only [List.mem_cons, List.not_mem_nil, or_false] at hx hy hz
    rcases hx with rfl | rfl | rfl <;> rcases hy with rfl | rfl | rfl <;>
      rcases hz with rfl | rfl | rfl <;>
      first
        | (left; rfl)
        | (right; rfl)
        | exact absurd hperm (by decide)
        | exact absurd hsort (by decide)

/-- C2, witness: a permitted ranked output under the envAB oracle is sorted,
and the stable order [C, A, B] is among the permitted outputs of the
example. -/
theorem C2_witness :
    sortedByLatency [⟨"a", -1, 0, false⟩, ⟨"b", 50, 10, false⟩] ∧
    ([dC10, dA50, dB50] = [dC10, dA50, dB50] ∨ [dC10, dA50, dB50] = [dC10, dB50, dA50]) :=
  ⟨C2_sorted_not_guaranteed_stable.1 envAB [⟨"a", 0, 0, false⟩, ⟨"b", 0, 0, false⟩]
      [⟨"a", -1, 0, false⟩, ⟨"b", 50, 10, false⟩] (by decide),
   C2_sorted_not_guaranteed_stable.2 [dC10, dA50, dB50] (by decide)⟩

/-- C6, counterexample: with two attempts succeeding at 10 ms and 15 ms the
code returns 12, while the arithmetic mean of the elapsed milliseconds is
25 / 2 = 12.5: the returned value is the integer quotient, not the
arithmetic mean. -/
theorem C6_exact_mean_cex :
    download [some 10, some 15] = Except.ok 12 ∧
    ¬ ((12 : ℚ) = ((10 : ℚ) + 15) / 2) :=
  ⟨rfl, by norm_num⟩

/-- C6, amended: download errors exactly when no attempt succeeded, and on
success returns the sum of the successful elapsed times divided by their
number with Go integer division, that is the floor of the arithmetic
mean. -/
theorem C6_mean_is_integer_division :
    ∀ attempts : List (Option Nat),
      ((download attempts).isOk = false ↔ attempts.filterMap id = []) ∧
      (∀ m : Int, download attempts = Except.ok m →
        m = (((attempts.filterMap id).sum / (attempts.filterMap id).length : ℕ) : Int) ∧
        m = ((⌊((attempts.filterMap id).sum : ℚ) /
            ((attempts.filterMap id).length : ℚ)⌋₊ : ℕ) : Int)) := by
  intro attempts
  constructor
  · rw [download_eq]
    by_cases h : (attempts.filterMap id).length = 0
    · rw [if_pos h]
      constructor
      · intro _
        exact List.length_eq_zero.1 h
      · intro _
        rfl
    · rw [if_neg h]
      constructor
      · intro hfalse
        simp [Except.isOk, Except.toBool] at hfalse
      · intro hnil
        exact absurd (by simp [hnil]) h
  · intro m hm
    rw [download_eq] at hm
    by_cases h : (attempts.filterMap id).length = 0
    · simp [h] at hm
    · simp only [h, if_false] at hm
      have hm2 := Except.ok.inj hm
      have htdiv : Int.tdiv ((attempts.filterMap id).sum : Int)
          ((attempts.filterMap id).length : Int)
          = (((attempts.filterMap id).sum / (attempts.filterMap id).length : ℕ) : Int) := rfl
      constructor
      · rw [← hm2, htdiv]
      · rw [← hm2, htdiv, Nat.floor_div_nat, Nat.floor_natCast]

/-- C6, witness: all attempts failing yields the error, and 3 of 5 attempts
succeeding at 10, 20 and 30 ms yields the mean 20. -/
theorem C6_witness :
    (download [(none : Option Nat), none]).isOk = false ∧
    (20 : Int) = (((([some 10, none, some 20, none, some 30] : List (Option Nat)).filterMap id).sum /
        (([some 10, none, some 20, none, some 30] : List (Option Nat)).filterMap id).length : ℕ) : Int) :=
  ⟨(C6_mean_is_integer_division [none, none]).1.2 rfl,
   ((C6_mean_is_integer_division [some 10, none, some 20, none, some 30]).2 20 rfl).1⟩

/-- C9: under ByLatency, a Domain with the failure sentinel -1 compares
strictly less than every Domain with nonnegative latency; in a sorted
sequence no sentinel candidate follows a nonnegative-latency one, so failed
candidates sit first; and concretely, under an oracle where host a is
unreachable and host b pings at 50 ms, the all-group refresh publishes host
a, whose probe failed, as the fastest domain. -/
theorem C9_failed_probe_sorts_first :
    (∀ d e : Domain, d.Latency = -1 → 0 ≤ e.Latency → byLatencyLess d e = true) ∧
    (∀ l : List Domain, sortedByLatency l →
      ∀ i j : Fin l.length, i < j → 0 ≤ (l.get i).Latency → (l.get j).Latency ≠ -1) ∧
    (storeAllFastestRel envAB [⟨"a", 0, 0, false⟩, ⟨"b", 0, 0, false⟩] initialStore
        (some (publish Group.all initialStore "a", [⟨"a", -1, 0, false⟩, ⟨"b", 50, 0, false⟩])) ∧
      read Group.all (publish Group.all initialStore "a") = "a" ∧
      (⟨"a", -1, 0, false⟩ : Domain).Latency = -1) := by
  refine ⟨?_, ?_, ⟨[⟨"a", -1, 0, false⟩, ⟨"b", 50, 0, false⟩], by decide, rfl⟩, rfl, rfl⟩
  · intro d e h1 h2
    have : d.Latency < e.Latency := by omega
    simpa [byLatencyLess] using this
  · intro l hsort i j hij hge heq
    have hrel := List.Sorted.rel_get_of_lt hsort hij
    omega

/-- C9, witness: the sentinel compares below a latency of 3 ms, and in the
concrete sorted list [2, 5] the later element is not the sentinel. -/
theorem C9_witness :
    byLatencyLess ⟨"x", -1, 0, false⟩ ⟨"y", 3, 0, false⟩ = true ∧
    (([⟨"p", 2, 0, false⟩, ⟨"q", 5, 0, false⟩] : List Domain).get ⟨1, by decide⟩).Latency ≠ -1 :=
  ⟨C9_failed_probe_sorts_first.1 ⟨"x", -1, 0, false⟩ ⟨"y", 3, 0, false⟩ rfl (by decide),
   C9_failed_probe_sorts_first.2.1 [⟨"p", 2, 0, false⟩, ⟨"q", 5, 0, false⟩] (by decide)
     ⟨0, by decide⟩ ⟨1, by decide⟩ (by decide) (by decide)⟩

/-- C10: updateDomainsLatency depends only on the ping oracle (the
throughput sampler is never invoked), preserves the length and every field
but Latency of every entry (no candidate is filtered), and in the all-group
refresh the sorted sequence keeps every measured domain, including those
with latency -1, while the name of its first element is what the read of
the all group returns after the publish. -/
theorem C10_all_group_latency_only :
    (∀ e1 e2 : NetEnv, e1.ping = e2.ping →
      ∀ domains, updateDomainsLatency e1 domains = updateDomainsLatency e2 domains) ∧
    (∀ (env : NetEnv) (domains : List Domain),
      (updateDomainsLatency env domains).length = domains.length ∧
      ∀ i : Nat, (updateDomainsLatency env domains)[i]? =
        (domains[i]?).map
          (fun d => ⟨d.Name, (tping (env.ping d.Name)).1, d.Download, d.DownloadErr⟩)) ∧
    (∀ (env : NetEnv) (domains : List Domain) (s st : Store) (sortedD : List Domain),
      storeAllFastestRel env domains s (some (st, sortedD)) →
        (∀ d ∈ updateDomainsLatency env domains, d ∈ sortedD) ∧
        ∃ d0, sortedD.head? = some d0 ∧ read Group.all st = d0.Name) := by
  refine ⟨?_, ?_, ?_⟩
  · intro e1 e2 h domains
    simp [updateDomainsLatency, h]
  · intro env domains
    refine ⟨by simp [updateDomainsLatency], ?_⟩
    intro i
    simp [updateDomainsLatency, List.getElem?_map]
  · rintro env domains s st sortedD ⟨sd, ⟨hperm, hsort⟩, hout⟩
    cases sd with
    | nil => simp at hout
    | cons d0 tl =>
        simp only [List.head?, Option.map_some] at hout
        injection hout with hpair
        injection hpair with hst hsd
        subst hsd
        subst hst
        refine ⟨fun d hd => hperm.mem_iff.2 hd, d0, rfl, rfl⟩

/-- C10, witness: at the envAB oracle, the unreachable host a stays in the
sorted sequence and is the published fastest domain of the all group. -/
theorem C10_witness :
    (⟨"a", -1, 0, false⟩ : Domain) ∈ ([⟨"a", -1, 0, false⟩, ⟨"b", 50, 0, false⟩] : List Domain) ∧
    read Group.all (publish Group.all initialStore "a") = "a" := by
  have h := C10_all_group_latency_only.2.2 envAB [⟨"a", 0, 0, false⟩, ⟨"b", 0, 0, false⟩]
    initialStore (publish Group.all initialStore "a")
    [⟨"a", -1, 0, false⟩, ⟨"b", 50, 0, false⟩]
    ⟨[⟨"a", -1, 0, false⟩, ⟨"b", 50, 0, false⟩], by decide, rfl⟩
  refine ⟨h.1 _ (by decide), ?_⟩
  obtain ⟨d0, hd0, hr⟩ := h.2
  have hd : d0 = ⟨"a", -1, 0, false⟩ := by
    simpa using hd0.symm
  rw [hr, hd]

end SpeedTest
